import Mathlib

/-!
Verification development for the EVTX parser repository.

The definitions below are a shallow embedding of the Rust sources:
`src/err.rs`, `src/evtx_structure.rs`, `src/template_cache.rs`,
`src/xml_output.rs` and the integration tests in
`tests/test_full_samples.rs`.  Machine integers are modelled as `Nat`,
byte buffers as `List Nat`, Rust `Result` as `Except`, panics as
`Option` (with `none` for the panicking path), and the `quick_xml`
writer as the list of events written to it.
-/

set_option maxHeartbeats 1000000

/-- Modelled from the spec: the serialization error type is defined outside
the provided sources; its use sites in `src/xml_output.rs` and
`src/evtx_structure.rs` show exactly the `Unimplemented` variant with a
`message` field and the `StructureBuilderError` variant with a `message`
field. -/
inductive SerializationError where
  | Unimplemented (message : String)
  | StructureBuilderError (message : String)
deriving DecidableEq

/-- An XML attribute as delivered to the output adapters: `name` is the
interned name string and `value` is the rendered value
(`attr.value.as_ref().as_cow_str()` in the source). -/
structure XmlAttribute where
  name : String
  value : String
deriving DecidableEq

/-- The `XmlElement` model type handed to `visit_open_start_element`. -/
structure XmlElement where
  name : String
  attributes : List XmlAttribute
deriving DecidableEq

/-- The events a `quick_xml::Writer` receives; `Start` carries the tag name
and the pushed attributes in order. -/
inductive XmlEvent where
  | Start (name : String) (attributes : List (String × String))
  | End (name : String)
  | Text (s : String)
  | Decl
  | Eof
deriving DecidableEq

/-- `XmlOutput<W>` from `src/xml_output.rs`: the writer is modelled by the
list of events written so far. -/
structure XmlOutput where
  events : List XmlEvent
deriving DecidableEq

namespace XmlOutput

/-- `XmlOutput::visit_open_start_element` from `src/xml_output.rs`: build a
start event, pushing each attribute whose rendered value has positive
length, then write the event. -/
def visit_open_start_element (o : XmlOutput) (element : XmlElement) :
    Except SerializationError XmlOutput :=
  let event_builder :=
    element.attributes.foldl
      (fun acc attr =>
        if attr.value.length > 0 then acc ++ [(attr.name, attr.value)] else acc)
      []
  Except.ok { events := o.events ++ [XmlEvent.Start element.name event_builder] }

/-- `XmlOutput::visit_close_element` from `src/xml_output.rs`. -/
def visit_close_element (o : XmlOutput) (element : XmlElement) :
    Except SerializationError XmlOutput :=
  Except.ok { events := o.events ++ [XmlEvent.End element.name] }

/-- `XmlOutput::visit_cdata_section` from `src/xml_output.rs`: always an
`Unimplemented` error. -/
def visit_cdata_section (_o : XmlOutput) : Except SerializationError XmlOutput :=
  Except.error (SerializationError.Unimplemented "src/xml_output.rs: visit_cdata_section")

/-- `XmlOutput::visit_entity_reference` from `src/xml_output.rs`: always an
`Unimplemented` error. -/
def visit_entity_reference (_o : XmlOutput) : Except SerializationError XmlOutput :=
  Except.error (SerializationError.Unimplemented "src/xml_output.rs: visit_entity_reference")

/-- `XmlOutput::visit_processing_instruction_target` from
`src/xml_output.rs`: always an `Unimplemented` error. -/
def visit_processing_instruction_target (_o : XmlOutput) :
    Except SerializationError XmlOutput :=
  Except.error
    (SerializationError.Unimplemented "src/xml_output.rs: visit_processing_instruction_target")

/-- `XmlOutput::visit_processing_instruction_data` from
`src/xml_output.rs`: always an `Unimplemented` error. -/
def visit_processing_instruction_data (_o : XmlOutput) :
    Except SerializationError XmlOutput :=
  Except.error
    (SerializationError.Unimplemented "src/xml_output.rs: visit_processing_instruction_data")

end XmlOutput

mutual

/-- `EvtxXmlContentType` from `src/evtx_structure.rs`. -/
inductive EvtxXmlContentType where
  | Simple (s : String) : EvtxXmlContentType
  | Complex (children : List EvtxXmlElement) : EvtxXmlContentType
  | None : EvtxXmlContentType

/-- `EvtxXmlElement` from `src/evtx_structure.rs`; the attribute `HashMap`
is modelled as an association list with insert-overwrites semantics. -/
inductive EvtxXmlElement where
  | mk (name : String) (attributes : List (String × String))
      (content : EvtxXmlContentType) : EvtxXmlElement

end

def EvtxXmlElement.name : EvtxXmlElement → String
  | .mk n _ _ => n

def EvtxXmlElement.attributes : EvtxXmlElement → List (String × String)
  | .mk _ a _ => a

def EvtxXmlElement.content : EvtxXmlElement → EvtxXmlContentType
  | .mk _ _ c => c

/-- `EvtxXmlElement::new` from `src/evtx_structure.rs`. -/
def EvtxXmlElement.new (name : String) : EvtxXmlElement :=
  .mk name [] EvtxXmlContentType.None

/-- `EvtxXmlElement::add_attribute` from `src/evtx_structure.rs`
(`HashMap::insert`, overwriting any previous binding of the name). -/
def EvtxXmlElement.add_attribute : EvtxXmlElement → String → String → EvtxXmlElement
  | .mk nm attrs c, n, v => .mk nm ((n, v) :: attrs.filter (fun p => p.1 ≠ n)) c

/-- `EvtxXmlElement::add_simple_content` from `src/evtx_structure.rs`; the
panicking branch (non-empty value added to `Complex` content) is `none`. -/
def EvtxXmlElement.add_simple_content : EvtxXmlElement → String → Option EvtxXmlElement
  | .mk nm attrs EvtxXmlContentType.None, value =>
    some (.mk nm attrs (EvtxXmlContentType.Simple value))
  | .mk nm attrs (EvtxXmlContentType.Simple s), value =>
    some (.mk nm attrs (EvtxXmlContentType.Simple (s ++ value)))
  | .mk nm attrs (EvtxXmlContentType.Complex v), value =>
    if value = "" then some (.mk nm attrs (EvtxXmlContentType.Complex v)) else none

/-- `EvtxXmlElement::add_child` from `src/evtx_structure.rs`; the panicking
branch (adding a child to a text node) is `none`. -/
def EvtxXmlElement.add_child : EvtxXmlElement → EvtxXmlElement → Option EvtxXmlElement
  | .mk _ _ (EvtxXmlContentType.Simple _), _ => none
  | .mk nm attrs EvtxXmlContentType.None, child =>
    some (.mk nm attrs (EvtxXmlContentType.Complex [child]))
  | .mk nm attrs (EvtxXmlContentType.Complex v), child =>
    some (.mk nm attrs (EvtxXmlContentType.Complex (v ++ [child])))

def EvtxXmlContentType.isSimple : EvtxXmlContentType → Bool
  | .Simple _ => true
  | _ => false

def EvtxXmlContentType.isComplex : EvtxXmlContentType → Bool
  | .Complex _ => true
  | _ => false

/-- `EvtxStructure` from `src/evtx_structure.rs` (the timestamp is an
abstract tick count). -/
structure EvtxStructure where
  event_record_id : Nat
  timestamp : Nat
  content : EvtxXmlElement

/-- `EvtxStructure::new` from `src/evtx_structure.rs`. -/
def EvtxStructure.new (event_record_id timestamp : Nat) : EvtxStructure :=
  { event_record_id, timestamp, content := EvtxXmlElement.new "" }

/-- `StructureBuilder` from `src/evtx_structure.rs`; the head of
`node_stack` is the top of the Rust `Vec` stack. -/
structure StructureBuilder where
  result : EvtxStructure
  node_stack : List EvtxXmlElement

/-- `StructureBuilder::new` from `src/evtx_structure.rs`. -/
def StructureBuilder.new (event_record_id timestamp : Nat) : StructureBuilder :=
  { result := EvtxStructure.new event_record_id timestamp, node_stack := [] }

/-- `StructureBuilder::enter_named_node` from `src/evtx_structure.rs`. -/
def StructureBuilder.enter_named_node (b : StructureBuilder) (name : String)
    (attributes : List XmlAttribute) : StructureBuilder :=
  let element :=
    attributes.foldl (fun el a => el.add_attribute a.name a.value) (EvtxXmlElement.new name)
  { b with node_stack := element :: b.node_stack }

/-- `StructureBuilder::leave_node` from `src/evtx_structure.rs`: pop the
stack (`none` models the stack-underflow panic), then either finish the
result or attach the node to the new stack top (`none` also models the
`add_child` panic). -/
def StructureBuilder.leave_node (b : StructureBuilder) (_name : String) :
    Option StructureBuilder :=
  match b.node_stack with
  | [] => none
  | my_node :: rest =>
    match rest with
    | [] => some { b with result := { b.result with content := my_node }, node_stack := [] }
    | top :: rest2 =>
      (top.add_child my_node).map (fun top2 => { b with node_stack := top2 :: rest2 })

/-- `StructureBuilder::visit_end_of_stream` from `src/evtx_structure.rs`. -/
def StructureBuilder.visit_end_of_stream (b : StructureBuilder) :
    Except SerializationError Unit :=
  if b.node_stack.isEmpty then Except.ok ()
  else Except.error (SerializationError.StructureBuilderError "node stack is not empty")

/-- `StructureBuilder::visit_open_start_element` from
`src/evtx_structure.rs`. -/
def StructureBuilder.visit_open_start_element (b : StructureBuilder)
    (element : XmlElement) : Except SerializationError StructureBuilder :=
  Except.ok (b.enter_named_node element.name element.attributes)

/-- `StructureBuilder::visit_close_element` from `src/evtx_structure.rs`. -/
def StructureBuilder.visit_close_element (b : StructureBuilder) (element : XmlElement) :
    Option StructureBuilder :=
  b.leave_node element.name

/-- `StructureBuilder::visit_characters` from `src/evtx_structure.rs`
(`none` models both the `unwrap` on an empty stack and the
`add_simple_content` panic). -/
def StructureBuilder.visit_characters (b : StructureBuilder) (value : String) :
    Option StructureBuilder :=
  match b.node_stack with
  | [] => none
  | top :: rest =>
    (top.add_simple_content value).map (fun top2 => { b with node_stack := top2 :: rest })

/-- `StructureBuilder::visit_entity_reference` from `src/evtx_structure.rs`. -/
def StructureBuilder.visit_entity_reference (b : StructureBuilder) (_name : String) :
    Except SerializationError StructureBuilder :=
  Except.ok b

/-- `StructureBuilder::visit_character_reference` from
`src/evtx_structure.rs`. -/
def StructureBuilder.visit_character_reference (b : StructureBuilder) (_s : String) :
    Except SerializationError StructureBuilder :=
  Except.ok b

/-- The open/close visitor calls the template expander can drive into the
structure builder. -/
inductive VisitorEvent where
  | openStart (element : XmlElement)
  | close (element : XmlElement)

def opens : List VisitorEvent → Nat
  | [] => 0
  | VisitorEvent.openStart _ :: rest => opens rest + 1
  | VisitorEvent.close _ :: rest => opens rest

def closes : List VisitorEvent → Nat
  | [] => 0
  | VisitorEvent.openStart _ :: rest => closes rest
  | VisitorEvent.close _ :: rest => closes rest + 1

/-- Drive a sequence of open/close visitor calls into the builder; `none`
models any panic along the way. -/
def runEvents : StructureBuilder → List VisitorEvent → Option StructureBuilder
  | b, [] => some b
  | b, VisitorEvent.openStart e :: rest =>
    match b.visit_open_start_element e with
    | Except.ok b2 => runEvents b2 rest
    | Except.error _ => none
  | b, VisitorEvent.close e :: rest =>
    (b.visit_close_element e).bind (fun b2 => runEvents b2 rest)

/-- Stack sanity: no element sitting on the node stack is a text node
(open/close traffic alone never makes one). -/
def stackOk (b : StructureBuilder) : Prop :=
  ∀ e ∈ b.node_stack, e.content.isSimple = false

/-- `Error` from `src/err.rs`.  External payloads (`std::io::Error`,
`FromUtf8Error`, serde and quick-xml errors, paths) are modelled as their
message strings, magic numbers as byte lists, and the non-data
`Backtrace` fields are dropped.  `Io` stands for the source's I/O error
variant.  `FailedToDeserializeRecord` boxes its cause recursively,
exactly as in the source. -/
inductive Error where
  | FailedToRead (offset : Nat) (t : String) (source : String)
  | Io (source : String)
  | InvalidInputPath (source : String) (path : String)
  | FailedToOpenFile (source : String) (path : String)
  | IncompleteChunk (chunk_number : Nat)
  | InvalidEvtxRecordHeaderMagic (magic : List Nat)
  | InvalidEvtxChunkMagic (magic : List Nat)
  | InvalidEvtxFileHeaderMagic (magic : List Nat)
  | UnknownEvtxHeaderFlagValue (value : Nat)
  | InvalidChunkChecksum
  | FailedToDeserializeRecord (record_id : Nat) (source : Error)
  | InvalidToken (value : Nat) (offset : Nat)
  | InvalidValueVariant (value : Nat) (offset : Nat)
  | UnimplementedToken (name : String) (offset : Nat)
  | FailedToDecodeUTF16String (source : String) (offset : Nat)
  | FailedToDecodeUTF8String (source : String) (offset : Nat)
  | FailedToReadGUID (source : String) (offset : Nat)
  | FailedToReadNTSID (source : String) (offset : Nat)
  | FailedToCreateRecordModel (message : String)
  | XmlOutputError (source : String)
  | JsonStructureError (message : String)
  | JsonError (source : String)
  | RecordContainsInvalidUTF8 (source : String)
  | Unimplemented (name : String)
  | Any (detail : String)
deriving DecidableEq

/-- First-match association-list lookup with `Nat` keys; models
`HashMap::get` on a map built by prepending inserts (a later insert for
the same key shadows the earlier one, as `HashMap::insert` overwrites). -/
def lookupOffset {β : Type} : List (Nat × β) → Nat → Option β
  | [], _ => none
  | (k, v) :: rest, o => if k = o then some v else lookupOffset rest o

/-- `TemplateCache` from `src/template_cache.rs`; the `HashMap` is the
association list `entries`, newest insert first.  The template-definition
type is a parameter because `BinXMLTemplateDefinition` is defined outside
the provided sources. -/
structure TemplateCache (Tmpl : Type) where
  entries : List (Nat × Tmpl)
deriving DecidableEq

/-- The loop body of `TemplateCache::populate` from
`src/template_cache.rs`, iterating over the already-filtered offsets:
seek to the offset, run `read_template_definition` there (abstracted as
`parse`, since that function is defined outside the provided sources) and
insert the definition keyed by the offset; any parse error aborts
`populate` (the `?` operator). -/
def populateGo {Tmpl : Type} (parse : Nat → Except Error Tmpl) :
    List Nat → List (Nat × Tmpl) → Except Error (List (Nat × Tmpl))
  | [], cache => Except.ok cache
  | o :: os, cache =>
    match parse o with
    | Except.error e => Except.error e
    | Except.ok definition => populateGo parse os ((o, definition) :: cache)

/-- `TemplateCache::populate` from `src/template_cache.rs`: iterate over
the non-zero offsets of the template offset table. -/
def populate {Tmpl : Type} (parse : Nat → Except Error Tmpl) (offsets : List Nat) :
    Except Error (TemplateCache Tmpl) :=
  match populateGo parse (offsets.filter (fun o => 0 < o)) [] with
  | Except.error e => Except.error e
  | Except.ok cache => Except.ok ⟨cache⟩

/-- `TemplateCache::get_template` from `src/template_cache.rs`: a pure map
lookup, with no access to the chunk data and no parsing. -/
def get_template {Tmpl : Type} (cache : TemplateCache Tmpl) (offset : Nat) : Option Tmpl :=
  lookupOffset cache.entries offset

/-- The offsets at which `populate`'s loop invokes
`read_template_definition`, in order: one call per filtered offset until
(and including) the first failing one. -/
def parseTraceGo {Tmpl : Type} (parse : Nat → Except Error Tmpl) : List Nat → List Nat
  | [] => []
  | o :: os =>
    match parse o with
    | Except.ok _ => o :: parseTraceGo parse os
    | Except.error _ => [o]

def parseTrace {Tmpl : Type} (parse : Nat → Except Error Tmpl) (offsets : List Nat) :
    List Nat :=
  parseTraceGo parse (offsets.filter (fun o => 0 < o))

/-- Modelled from the spec: the BinXML token kinds of §4.4 (the tokenizer
itself is defined outside the provided sources). -/
inductive BinXmlToken where
  | endOfStream
  | openStartElement (has_attributes : Bool)
  | closeStartElement
  | closeEmptyElement
  | closeElement
  | value (has_more : Bool)
  | attribute (has_more : Bool)
  | cdata
  | charRef
  | entityRef
  | piTarget
  | piData
  | templateInstance
  | normalSubstitution
  | optionalSubstitution
  | fragmentHeader
deriving DecidableEq

/-- Modelled from the spec: §4.4's token-byte table.  The valid token bytes
are `0x00`–`0x0F` plus the attribute-flagged forms `0x41`, `0x45`, `0x46`;
any other byte is an `InvalidToken` error carrying the byte and its
offset. -/
def readTokenByte (offset : Nat) (b : Nat) : Except Error BinXmlToken :=
  if b = 0x00 then Except.ok BinXmlToken.endOfStream
  else if b = 0x01 then Except.ok (BinXmlToken.openStartElement false)
  else if b = 0x41 then Except.ok (BinXmlToken.openStartElement true)
  else if b = 0x02 then Except.ok BinXmlToken.closeStartElement
  else if b = 0x03 then Except.ok BinXmlToken.closeEmptyElement
  else if b = 0x04 then Except.ok BinXmlToken.closeElement
  else if b = 0x05 then Except.ok (BinXmlToken.value false)
  else if b = 0x45 then Except.ok (BinXmlToken.value true)
  else if b = 0x06 then Except.ok (BinXmlToken.attribute false)
  else if b = 0x46 then Except.ok (BinXmlToken.attribute true)
  else if b = 0x07 then Except.ok BinXmlToken.cdata
  else if b = 0x08 then Except.ok BinXmlToken.charRef
  else if b = 0x09 then Except.ok BinXmlToken.entityRef
  else if b = 0x0A then Except.ok BinXmlToken.piTarget
  else if b = 0x0B then Except.ok BinXmlToken.piData
  else if b = 0x0C then Except.ok BinXmlToken.templateInstance
  else if b = 0x0D then Except.ok BinXmlToken.normalSubstitution
  else if b = 0x0E then Except.ok BinXmlToken.optionalSubstitution
  else if b = 0x0F then Except.ok BinXmlToken.fragmentHeader
  else Except.error ( Error.InvalidToken b offset)

/-- Modelled from the spec: tokenize a record's BinXML bytes in sequence,
failing on the first invalid token byte. -/
def tokenizeFrom : Nat → List Nat → Except Error (List BinXmlToken)
  | _, [] => Except.ok []
  | offset, b :: rest =>
    match readTokenByte offset b with
    | Except.error e => Except.error e
    | Except.ok t =>
      match tokenizeFrom (offset + 1) rest with
      | Except.error e => Except.error e
      | Except.ok ts => Except.ok (t :: ts)

def tokenize (bytes : List Nat) : Except Error (List BinXmlToken) :=
  tokenizeFrom 0 bytes

/-- A raw record as carved out of a chunk: its announced record id and its
BinXML payload bytes. -/
structure RawRecord where
  record_id : Nat
  bytes : List Nat
deriving DecidableEq

/-- Modelled from the spec (§7): record deserialization runs the byte/token
level parser over the record's payload; any error there bubbles up wrapped
as `FailedToDeserializeRecord` with the record's id and the underlying
cause as its source.  (The wrapping lives in the record deserializer,
which is outside the provided sources; the error shape is
`Error::FailedToDeserializeRecord` from `src/err.rs`.) -/
def deserializeRecord (record_id : Nat) (bytes : List Nat) :
    Except Error (List BinXmlToken) :=
  match tokenize bytes with
  | Except.ok tokens => Except.ok tokens
  | Except.error e => Except.error ( Error.FailedToDeserializeRecord record_id e)

/-- Modelled from the spec (§7): `EvtxParser::records` (outside the
provided sources) yields one independent success-or-error value per
record; a failing record does not stop the iteration. -/
def records (file : List RawRecord) : List (Except Error (List BinXmlToken)) :=
  file.map (fun r => deserializeRecord r.record_id r.bytes)

/-- One chunk's record production: strictly sequential within the chunk. -/
def processChunk (chunk : List RawRecord) : List (Except Error (List BinXmlToken)) :=
  records chunk

/-- Pair every chunk with its file-order index, starting at `s`. -/
def indexedFrom {α : Type} : Nat → List α → List (Nat × α)
  | _, [] => []
  | s, c :: cs => (s, c) :: indexedFrom (s + 1) cs

/-- Modelled from the spec (§5): with `num_threads = N`, worker `k`
receives the chunks whose file-order index is congruent to `k` mod `N`
and produces, in order, the pair (chunk index, that chunk's record
results). -/
def workerOutput (N k : Nat) (file : List (List RawRecord)) :
    List (Nat × List (Except Error (List BinXmlToken))) :=
  ((indexedFrom 0 file).filter (fun q => q.1 % N == k)).map
    (fun q => (q.1, processChunk q.2))

/-- Modelled from the spec (§5): all worker outputs, worker by worker. -/
def gatherOutputs (N : Nat) (file : List (List RawRecord)) :
    List (Nat × List (Except Error (List BinXmlToken))) :=
  ((List.range N).map (fun k => workerOutput N k file)).flatten

/-- Modelled from the spec (§5): the parallel driver serialises the worker
outputs back into a single stream by chunk index. -/
def parallelRecords (N : Nat) (file : List (List RawRecord)) :
    List (Except Error (List BinXmlToken)) :=
  ((List.range file.length).filterMap
    (fun i => lookupOffset (gatherOutputs N file) i)).flatten

/-- Modelled from the spec (§5, §6): `num_threads = 1` iterates the chunks
sequentially; `num_threads > 1` dispatches them to the worker pool and
re-serialises. -/
def recordsWithThreads (num_threads : Nat) (file : List (List RawRecord)) :
    List (Except Error (List BinXmlToken)) :=
  if num_threads = 1 then (file.map processChunk).flatten
  else parallelRecords num_threads file

/-- A raw chunk: its records plus its stored and recomputed data CRC32. -/
structure RawChunk where
  chunk_records : List RawRecord
  storedCrc : Nat
  computedCrc : Nat
deriving DecidableEq

/-- Modelled from the spec (§4.1, §6): when `validate_checksums` is on and
the recomputed data CRC differs from the stored one, the chunk is emitted
as the single soft error `InvalidChunkChecksum` and its record stream is
not produced; otherwise the checksum is ignored and the records are
produced. -/
def processChunkChecked (validate_checksums : Bool) (c : RawChunk) :
    List (Except Error (List BinXmlToken)) :=
  if validate_checksums && !(c.computedCrc == c.storedCrc) then
    [Except.error Error.InvalidChunkChecksum]
  else processChunk c.chunk_records

/-- Modelled from the spec: parse a whole file chunk by chunk. -/
def parseFile (validate_checksums : Bool) (chunks : List RawChunk) :
    List (Except Error (List BinXmlToken)) :=
  (chunks.map (processChunkChecked validate_checksums)).flatten

def isOkResult {α : Type} : Except Error α → Bool
  | Except.ok _ => true
  | Except.error _ => false

/-- Modelled from the spec (§8 scenario 6): `sample_with_no_crc32.evtx` is
a file whose single chunk holds 17 well-formed records (ids 1..17) and
whose stored data CRC32 is absent (zero) while the recomputed CRC of the
record data is non-zero. -/
def sampleWithNoCrc32 : List RawChunk :=
  [{ chunk_records :=
      (List.range 17).map (fun i => { record_id := i + 1, bytes := [0x00] }),
     storedCrc := 0,
     computedCrc := 0xDEADBEEF }]

lemma string_length_pos_iff (s : String) : (s.length > 0) = (s ≠ "") := by
  apply propext
  constructor
  · intro h hc
    subst hc
    simp at h
  · intro h
    cases s with
    | mk data =>
      cases data with
      | nil => exact absurd rfl h
      | cons c cs => simp [String.length]

lemma attr_fold_eq_filter_map :
    ∀ (l : List XmlAttribute) (acc : List (String × String)),
      l.foldl
        (fun acc attr =>
          if attr.value.length > 0 then acc ++ [(attr.name, attr.value)] else acc)
        acc
      = acc ++ (l.filter (fun a => a.value ≠ "")).map (fun a => (a.name, a.value)) := by
  intro l
  induction l with
  | nil => intro acc; simp
  | cons a l ih =>
    intro acc
    by_cases h : a.value = ""
    · have hlen : ¬ (a.value.length > 0) := by
        rw [string_length_pos_iff]; simp [h]
      simp [List.foldl_cons, List.filter_cons, hlen, h, ih]
    · have hlen : a.value.length > 0 := by
        rw [string_length_pos_iff]; exact h
      simp [List.foldl_cons, List.filter_cons, hlen, h, ih]

/-- C6: in `XmlOutput::visit_open_start_element`, the emitted start tag
carries exactly the attributes whose rendered value is non-empty, in
order; attributes rendering to the empty string are omitted. -/
theorem xmlOutput_open_start_element_omits_empty_attributes
    (o : XmlOutput) (element : XmlElement) :
    XmlOutput.visit_open_start_element o element
      = Except.ok ⟨o.events ++
          [XmlEvent.Start element.name
            (((element.attributes.filter (fun a => a.value ≠ "")).map
              (fun a => (a.name, a.value))))]⟩ := by
  unfold XmlOutput.visit_open_start_element
  rw [attr_fold_eq_filter_map]
  simp

/-- C7: each of `visit_cdata_section`, `visit_entity_reference`,
`visit_processing_instruction_target` and
`visit_processing_instruction_data` of the XML output adapter always
returns an `Unimplemented` serialization error and never succeeds. -/
theorem xmlOutput_unimplemented_visitors (o : XmlOutput) :
    XmlOutput.visit_cdata_section o
      = Except.error (SerializationError.Unimplemented "src/xml_output.rs: visit_cdata_section")
    ∧ XmlOutput.visit_entity_reference o
      = Except.error (SerializationError.Unimplemented "src/xml_output.rs: visit_entity_reference")
    ∧ XmlOutput.visit_processing_instruction_target o
      = Except.error
          (SerializationError.Unimplemented
            "src/xml_output.rs: visit_processing_instruction_target")
    ∧ XmlOutput.visit_processing_instruction_data o
      = Except.error
          (SerializationError.Unimplemented
            "src/xml_output.rs: visit_processing_instruction_data") :=
  ⟨rfl, rfl, rfl, rfl⟩

/-- C8: `StructureBuilder::visit_entity_reference` and
`visit_character_reference` are no-ops: they succeed and leave the whole
builder state (result structure and node stack) unchanged. -/
theorem structureBuilder_entity_char_reference_noop
    (b : StructureBuilder) (name s : String) :
    StructureBuilder.visit_entity_reference b name = Except.ok b
    ∧ StructureBuilder.visit_character_reference b s = Except.ok b :=
  ⟨rfl, rfl⟩

/-- C10: `add_simple_content` fails (panics) exactly when a non-empty text
value is added to an element whose content is already `Complex`, and
`add_child` fails exactly when the element's content is `Simple`; in all
other cases both operations succeed. -/
theorem evtxXmlElement_content_never_mixed
    (e : EvtxXmlElement) (v : String) (c : EvtxXmlElement) :
    (e.add_simple_content v = none ↔ (e.content.isComplex = true ∧ v ≠ ""))
    ∧ (e.add_child c = none ↔ e.content.isSimple = true) := by
  cases e with
  | mk nm attrs ct =>
    cases ct <;> by_cases hv : v = "" <;>
      simp [EvtxXmlElement.add_simple_content, EvtxXmlElement.add_child,
        EvtxXmlElement.content, EvtxXmlContentType.isComplex,
        EvtxXmlContentType.isSimple, hv]

lemma foldl_add_attribute_content :
    ∀ (attrs : List XmlAttribute) (el : EvtxXmlElement),
      (attrs.foldl (fun el a => el.add_attribute a.name a.value) el).content
        = el.content := by
  intro attrs
  induction attrs with
  | nil => intro el; rfl
  | cons a attrs ih =>
    intro el
    rw [List.foldl_cons, ih]
    cases el; rfl

lemma enter_named_node_stack (b : StructureBuilder) (name : String)
    (attrs : List XmlAttribute) :
    (b.enter_named_node name attrs).node_stack
      = (attrs.foldl (fun el a => el.add_attribute a.name a.value)
          (EvtxXmlElement.new name)) :: b.node_stack := rfl

lemma stackOk_enter (b : StructureBuilder) (hb : stackOk b) (name : String)
    (attrs : List XmlAttribute) : stackOk (b.enter_named_node name attrs) := by
  intro e he
  rw [enter_named_node_stack] at he
  rcases List.mem_cons.mp he with h | h
  · subst h
    have hc :
        (attrs.foldl (fun el a => el.add_attribute a.name a.value)
          (EvtxXmlElement.new name)).content = (EvtxXmlElement.new name).content :=
      foldl_add_attribute_content attrs _
    rw [hc]
    rfl
  · exact hb e h

lemma add_child_of_not_simple (t child : EvtxXmlElement)
    (h : t.content.isSimple = false) :
    ∃ t2, t.add_child child = some t2 ∧ t2.content.isSimple = false := by
  cases t with
  | mk nm attrs ct =>
    cases ct with
    | Simple s => simp [EvtxXmlContentType.isSimple, EvtxXmlElement.content] at h
    | Complex v => exact ⟨_, rfl, rfl⟩
    | None => exact ⟨_, rfl, rfl⟩

lemma leave_node_nil (b : StructureBuilder) (nm : String)
    (h : b.node_stack = []) : b.leave_node nm = none := by
  simp [StructureBuilder.leave_node, h]

lemma leave_node_spec (b : StructureBuilder) (nm : String) (hok : stackOk b)
    (hne : b.node_stack ≠ []) :
    ∃ b2, b.leave_node nm = some b2 ∧ stackOk b2
      ∧ b2.node_stack.length + 1 = b.node_stack.length := by
  cases hs : b.node_stack with
  | nil => exact absurd hs hne
  | cons my_node rest =>
    cases rest with
    | nil =>
      refine ⟨{ b with result := { b.result with content := my_node }, node_stack := [] },
        ?_, ?_, ?_⟩
      · simp [StructureBuilder.leave_node, hs]
      · intro e he; simp at he
      · simp [hs]
    | cons top rest2 =>
      have htop : top.content.isSimple = false := by
        apply hok top
        rw [hs]
        exact List.mem_cons_of_mem _ (List.mem_cons_self _ _)
      obtain ⟨t2, ht2, ht2ok⟩ := add_child_of_not_simple top my_node htop
      refine ⟨{ b with node_stack := t2 :: rest2 }, ?_, ?_, ?_⟩
      · simp [StructureBuilder.leave_node, hs, ht2]
      · intro e he
        simp only [List.mem_cons] at he
        rcases he with h | h
        · subst h; exact ht2ok
        · exact hok e (by rw [hs]; exact List.mem_cons_of_mem _ (List.mem_cons_of_mem _ h))
      · simp [hs]

lemma runEvents_spec :
    ∀ (events : List VisitorEvent) (b : StructureBuilder), stackOk b →
      ((runEvents b events).isSome
        ↔ ∀ n, closes (events.take n) ≤ opens (events.take n) + b.node_stack.length)
      ∧ (∀ b2, runEvents b events = some b2 →
          stackOk b2
          ∧ b2.node_stack.length + closes events = b.node_stack.length + opens events) := by
  intro events
  induction events with
  | nil =>
    intro b hb
    constructor
    · simp only [runEvents, Option.isSome_some, true_iff]
      intro n
      simp [closes]
    · intro b2 h
      simp only [runEvents, Option.some_inj] at h
      subst h
      exact ⟨hb, by simp [closes, opens]⟩
  | cons ev rest ih =>
    cases ev with
    | openStart e =>
      intro b hb
      have hb2 : stackOk (b.enter_named_node e.name e.attributes) :=
        stackOk_enter b hb e.name e.attributes
      have hlen : (b.enter_named_node e.name e.attributes).node_stack.length
          = b.node_stack.length + 1 := by
        rw [enter_named_node_stack]; simp
      have hrun : runEvents b (VisitorEvent.openStart e :: rest)
          = runEvents (b.enter_named_node e.name e.attributes) rest := by
        simp [runEvents, StructureBuilder.visit_open_start_element]
      obtain ⟨ih1, ih2⟩ := ih (b.enter_named_node e.name e.attributes) hb2
      constructor
      · rw [hrun, ih1]
        constructor
        · intro h n
          cases n with
          | zero => simp [closes]
          | succ n =>
            have := h n
            rw [hlen] at this
            simp only [List.take_succ_cons, opens, closes] at this ⊢
            omega
        · intro h n
          have := h (n + 1)
          rw [hlen]
          simp only [List.take_succ_cons, opens, closes] at this ⊢
          omega
      · intro b3 h3
        rw [hrun] at h3
        obtain ⟨hok3, hlen3⟩ := ih2 b3 h3
        refine ⟨hok3, ?_⟩
        rw [hlen] at hlen3
        simp only [opens, closes] at hlen3 ⊢
        omega
    | close e =>
      intro b hb
      by_cases hnil : b.node_stack = []
      · have hrun : runEvents b (VisitorEvent.close e :: rest) = none := by
          simp [runEvents, StructureBuilder.visit_close_element,
            leave_node_nil b e.name hnil]
        constructor
        · rw [hrun]
          simp only [Option.isSome_none, Bool.false_eq_true, false_iff]
          intro hall
          have h1 := hall 1
          simp [List.take_succ_cons, closes, opens, hnil] at h1
        · intro b2 h2
          rw [hrun] at h2
          exact Option.noConfusion h2
      · obtain ⟨b2, hleave, hok2, hlen2⟩ := leave_node_spec b e.name hb hnil
        have hrun : runEvents b (VisitorEvent.close e :: rest) = runEvents b2 rest := by
          simp [runEvents, StructureBuilder.visit_close_element, hleave]
        obtain ⟨ih1, ih2⟩ := ih b2 hok2
        constructor
        · rw [hrun, ih1]
          constructor
          · intro h n
            cases n with
            | zero => simp [closes]
            | succ n =>
              have := h n
              simp only [List.take_succ_cons, opens, closes] at this ⊢
              omega
          · intro h n
            have := h (n + 1)
            simp only [List.take_succ_cons, opens, closes] at this ⊢
            omega
        · intro b3 h3
          rw [hrun] at h3
          obtain ⟨hok3, hlen3⟩ := ih2 b3 h3
          refine ⟨hok3, ?_⟩
          simp only [opens, closes] at hlen3 ⊢
          omega

/-- C9: `visit_end_of_stream` errors exactly when the node stack is
non-empty; consequently a record structure driven by open/close visitor
calls from a fresh builder completes (all panics avoided and
`visit_end_of_stream` succeeding) exactly when the open and close calls
are balanced: no prefix closes more elements than it opened, and the
totals agree. -/
theorem structureBuilder_end_of_stream_iff_balanced :
    (∀ b : StructureBuilder,
      (∃ err, b.visit_end_of_stream = Except.error err) ↔ b.node_stack ≠ [])
    ∧ (∀ (id ts : Nat) (events : List VisitorEvent),
        (∃ b2, runEvents (StructureBuilder.new id ts) events = some b2
          ∧ b2.visit_end_of_stream = Except.ok ())
        ↔ ((∀ n, closes (events.take n) ≤ opens (events.take n))
          ∧ opens events = closes events)) := by
  constructor
  · intro b
    cases hs : b.node_stack with
    | nil => simp [StructureBuilder.visit_end_of_stream, hs]
    | cons x xs => simp [StructureBuilder.visit_end_of_stream, hs]
  · intro id ts events
    have hok : stackOk (StructureBuilder.new id ts) := by
      intro e he
      simp [StructureBuilder.new, EvtxStructure.new] at he
    obtain ⟨h1, h2⟩ := runEvents_spec events (StructureBuilder.new id ts) hok
    have hlen0 : (StructureBuilder.new id ts).node_stack.length = 0 := rfl
    constructor
    · rintro ⟨b2, hrun, heos⟩
      have hstack : b2.node_stack = [] := by
        cases hs : b2.node_stack with
        | nil => rfl
        | cons x xs =>
          rw [StructureBuilder.visit_end_of_stream, hs] at heos
          simp at heos
      obtain ⟨_, hlen⟩ := h2 b2 hrun
      rw [hstack, hlen0] at hlen
      simp at hlen
      have hpre := h1.mp (by rw [hrun]; rfl)
      constructor
      · intro n
        have := hpre n
        rw [hlen0] at this
        omega
      · omega
    · rintro ⟨hpre, hbal⟩
      have hsome : (runEvents (StructureBuilder.new id ts) events).isSome := by
        rw [h1]
        intro n
        rw [hlen0]
        have := hpre n
        omega
      obtain ⟨b2, hrun⟩ := Option.isSome_iff_exists.mp hsome
      obtain ⟨_, hlen⟩ := h2 b2 hrun
      rw [hlen0] at hlen
      have hz : b2.node_stack.length = 0 := by omega
      have hnil : b2.node_stack = [] := List.length_eq_zero.mp hz
      exact ⟨b2, hrun, by simp [StructureBuilder.visit_end_of_stream, hnil]⟩

lemma populateGo_ok_spec {Tmpl : Type} (parse : Nat → Except Error Tmpl) :
    ∀ (os : List Nat) (acc cache : List (Nat × Tmpl)),
      populateGo parse os acc = Except.ok cache →
      parseTraceGo parse os = os
      ∧ (∀ o ∈ os, ∃ d, parse o = Except.ok d ∧ lookupOffset cache o = some d)
      ∧ (∀ o, o ∉ os → lookupOffset cache o = lookupOffset acc o) := by
  intro os
  induction os with
  | nil =>
    intro acc cache h
    simp only [populateGo, Except.ok.injEq] at h
    subst h
    exact ⟨rfl, by simp, fun o _ => rfl⟩
  | cons o os ih =>
    intro acc cache h
    cases hp : parse o with
    | error e => simp [populateGo, hp] at h
    | ok d =>
      simp only [populateGo, hp] at h
      obtain ⟨htr, hmem, hnot⟩ := ih ((o, d) :: acc) cache h
      refine ⟨by simp [parseTraceGo, hp, htr], ?_, ?_⟩
      · intro o2 ho2
        rcases List.mem_cons.mp ho2 with he | hm
        · subst he
          by_cases hin : o2 ∈ os
          · exact hmem o2 hin
          · refine ⟨d, hp, ?_⟩
            rw [hnot o2 hin]
            simp [lookupOffset]
        · exact hmem o2 hm
      · intro o2 ho2
        have h1 : o2 ∉ os := fun hc => ho2 (List.mem_cons_of_mem _ hc)
        have h2 : o2 ≠ o := fun hc => ho2 (hc ▸ List.mem_cons_self _ _)
        rw [hnot o2 h1]
        simp only [lookupOffset]
        rw [if_neg (fun hc => h2 hc.symm)]

/-- C4: on a successful `TemplateCache::populate`, the parse calls hit
exactly the non-zero offsets of the template offset table, once each in
table order (zero offsets are skipped, and under distinct table entries no
offset is parsed twice); every parsed definition is stored keyed by its
offset, and `get_template` — a pure lookup that never parses — returns
exactly the stored definitions. -/
theorem templateCache_parse_once {Tmpl : Type} (parse : Nat → Except Error Tmpl)
    (offsets : List Nat) (cache : TemplateCache Tmpl)
    (h : populate parse offsets = Except.ok cache) :
    parseTrace parse offsets = offsets.filter (fun o => 0 < o)
    ∧ (∀ o ∈ offsets.filter (fun o => 0 < o),
        ∃ d, parse o = Except.ok d ∧ get_template cache o = some d)
    ∧ (∀ o, o ∉ offsets.filter (fun o => 0 < o) → get_template cache o = none)
    ∧ (offsets.Nodup → ∀ o, (parseTrace parse offsets).count o ≤ 1) := by
  cases hg : populateGo parse (offsets.filter (fun o => 0 < o)) [] with
  | error e => simp [populate, hg] at h
  | ok entries =>
    have hc : cache = ⟨entries⟩ := by
      simp only [populate, hg, Except.ok.injEq] at h
      exact h.symm
    subst hc
    obtain ⟨htr, hmem, hnot⟩ := populateGo_ok_spec parse _ [] entries hg
    have htrace : parseTrace parse offsets = offsets.filter (fun o => 0 < o) := by
      rw [parseTrace, htr]
    refine ⟨htrace, ?_, ?_, ?_⟩
    · intro o ho
      obtain ⟨d, hd, hl⟩ := hmem o ho
      exact ⟨d, hd, hl⟩
    · intro o ho
      have := hnot o ho
      simpa [get_template, lookupOffset] using this
    · intro hnd o
      rw [htrace]
      exact List.nodup_iff_count_le_one.mp (hnd.filter _) o

/-- Witness for C4 at a concrete table: offsets `[0, 5, 7, 0]`, a parser
returning `o + 100` at offset `o`. -/
theorem templateCache_parse_once_witness :
    populate (fun o => (Except.ok (o + 100) : Except Error Nat)) [0, 5, 7, 0]
      = Except.ok ⟨[(7, 107), (5, 105)]⟩
    ∧ parseTrace (fun o => (Except.ok (o + 100) : Except Error Nat)) [0, 5, 7, 0]
      = [5, 7] := by
  have h := templateCache_parse_once (fun o => (Except.ok (o + 100) : Except Error Nat))
    [0, 5, 7, 0] ⟨[(7, 107), (5, 105)]⟩ rfl
  exact ⟨rfl, by simpa using h.1⟩

/-- C2: whenever the byte/token-level parse of a record's payload fails
with any error, the record's result is exactly
`FailedToDeserializeRecord` carrying the record's id and that error as
its cause; conversely every error a record yields has that shape. -/
theorem deserializeRecord_wraps_errors (record_id : Nat) (bytes : List Nat) :
    (∀ e, tokenize bytes = Except.error e →
      deserializeRecord record_id bytes
        = Except.error ( Error.FailedToDeserializeRecord record_id e))
    ∧ (∀ e2, deserializeRecord record_id bytes = Except.error e2 →
        ∃ cause, e2 = Error.FailedToDeserializeRecord record_id cause
          ∧ tokenize bytes = Except.error cause) := by
  constructor
  · intro e he
    simp [deserializeRecord, he]
  · intro e2 he2
    cases ht : tokenize bytes with
    | ok t => simp [deserializeRecord, ht] at he2
    | error e =>
      simp only [deserializeRecord, ht, Except.error.injEq] at he2
      exact ⟨e, he2.symm, rfl⟩

/-- Witness for C2: record id 3 whose payload starts with the invalid
token byte `0x50`. -/
theorem deserializeRecord_wraps_errors_witness :
    deserializeRecord 3 [0x50]
      = Except.error
          ( Error.FailedToDeserializeRecord 3 ( Error.InvalidToken 0x50 0)) :=
  (deserializeRecord_wraps_errors 3 [0x50]).1 ( Error.InvalidToken 0x50 0) rfl

/-- C1: the record iterator yields exactly one independent
success-or-error value per record of the file: the result at position `i`
is the deserialization of record `i` alone, so a record that fails to
parse never aborts the iteration and every subsequent record is still
attempted and yielded. -/
theorem records_independent_results (file : List RawRecord) :
    (records file).length = file.length
    ∧ ∀ i : Nat, (records file)[i]?
        = (file[i]?).map (fun r => deserializeRecord r.record_id r.bytes) := by
  constructor
  · simp [records]
  · intro i
    simp [records]

lemma lookupOffset_append_some {β : Type} (l1 l2 : List (Nat × β)) (a : Nat) (v : β)
    (h : lookupOffset l1 a = some v) : lookupOffset (l1 ++ l2) a = some v := by
  induction l1 with
  | nil => simp [lookupOffset] at h
  | cons p l1 ih =>
    obtain ⟨k, v2⟩ := p
    simp only [List.cons_append, lookupOffset] at h ⊢
    by_cases hk : k = a
    · simpa [hk] using h
    · rw [if_neg hk] at h ⊢
      exact ih h

lemma lookupOffset_append_none {β : Type} (l1 l2 : List (Nat × β)) (a : Nat)
    (h : lookupOffset l1 a = none) :
    lookupOffset (l1 ++ l2) a = lookupOffset l2 a := by
  induction l1 with
  | nil => rfl
  | cons p l1 ih =>
    obtain ⟨k, v2⟩ := p
    simp only [List.cons_append, lookupOffset] at h ⊢
    by_cases hk : k = a
    · simp [hk] at h
    · rw [if_neg hk] at h ⊢
      exact ih h

lemma lookup_worker_found {α β : Type} (f : α → β) (p : Nat × α → Bool) (d : α) :
    ∀ (l : List α) (s j : Nat), j < l.length → p (s + j, l.getD j d) = true →
      lookupOffset (((indexedFrom s l).filter p).map (fun q => (q.1, f q.2))) (s + j)
        = some (f (l.getD j d)) := by
  intro l
  induction l with
  | nil => intro s j hj; simp at hj
  | cons c cs ih =>
    intro s j hj hp
    cases j with
    | zero =>
      rw [Nat.add_zero] at hp ⊢
      simp only [List.getD_cons_zero] at hp ⊢
      simp only [indexedFrom, List.filter_cons, hp, if_true, List.map_cons]
      simp [lookupOffset]
    | succ j =>
      have hj2 : j < cs.length := by simpa using hj
      simp only [List.getD_cons_succ] at hp ⊢
      have harith : s + 1 + j = s + (j + 1) := by omega
      have hrec := ih (s + 1) j hj2 (by rw [harith]; exact hp)
      rw [harith] at hrec
      simp only [indexedFrom, List.filter_cons]
      by_cases hpc : p (s, c) = true
      · have hne : s ≠ s + (j + 1) := by omega
        simp only [hpc, if_true, List.map_cons, lookupOffset]
        rw [if_neg hne]
        exact hrec
      · simp only [hpc, if_false]
        exact hrec

lemma lookup_worker_wrong_class {α β : Type} (f : α → β) (N k : Nat) :
    ∀ (l : List α) (s a : Nat), a % N ≠ k →
      lookupOffset (((indexedFrom s l).filter (fun q => q.1 % N == k)).map
        (fun q => (q.1, f q.2))) a = none := by
  intro l
  induction l with
  | nil => intro s a _; rfl
  | cons c cs ih =>
    intro s a h
    simp only [indexedFrom, List.filter_cons]
    by_cases hc : (s % N == k) = true
    · have hsk : s % N = k := by simpa using hc
      have hne : s ≠ a := fun he => h (he ▸ hsk)
      simp only [hc, if_true, List.map_cons, lookupOffset]
      rw [if_neg hne]
      exact ih (s + 1) a h
    · simp only [hc, if_false]
      exact ih (s + 1) a h

lemma lookup_gather_found (N : Nat) (_hN : 0 < N) (file : List (List RawRecord)) :
    ∀ (ks : List Nat) (i : Nat), i < file.length → i % N ∈ ks →
      lookupOffset ((ks.map (fun k => workerOutput N k file)).flatten) i
        = some (processChunk (file.getD i [])) := by
  intro ks
  induction ks with
  | nil => intro i _ hmem; simp at hmem
  | cons k ks ih =>
    intro i hi hmem
    simp only [List.map_cons, List.flatten_cons]
    by_cases hk : i % N = k
    · have hp : ((fun q : Nat × List RawRecord => q.1 % N == k) (0 + i, file.getD i []))
          = true := by
        simp [hk]
      have hfound := lookup_worker_found processChunk
        (fun q : Nat × List RawRecord => q.1 % N == k) [] file 0 i hi hp
      rw [Nat.zero_add] at hfound
      exact lookupOffset_append_some _ _ _ _ hfound
    · have hnone : lookupOffset (workerOutput N k file) i = none :=
        lookup_worker_wrong_class processChunk N k file 0 i hk
      rw [lookupOffset_append_none _ _ _ hnone]
      refine ih i hi ?_
      rcases List.mem_cons.mp hmem with h | h
      · exact absurd h hk
      · exact h

lemma filterMap_all_some {γ : Type} (G : Nat → γ) :
    ∀ (is : List Nat) (F : Nat → Option γ), (∀ i ∈ is, F i = some (G i)) →
      is.filterMap F = is.map G := by
  intro is
  induction is with
  | nil => intro F _; rfl
  | cons i is ih =>
    intro F h
    rw [List.filterMap_cons, List.map_cons, h i (List.mem_cons_self _ _),
      ih F (fun j hj => h j (List.mem_cons_of_mem _ hj))]

lemma range_map_getD {α β : Type} (g : α → β) (d : α) :
    ∀ l : List α, (List.range l.length).map (fun i => g (l.getD i d)) = l.map g := by
  intro l
  induction l with
  | nil => rfl
  | cons c cs ih =>
    rw [List.length_cons, List.range_succ_eq_map, List.map_cons, List.map_map]
    simp only [Function.comp_def, List.getD_cons_succ, List.getD_cons_zero]
    rw [ih]
    rfl

lemma parallelRecords_eq (N : Nat) (hN : 0 < N) (file : List (List RawRecord)) :
    parallelRecords N file = (file.map processChunk).flatten := by
  unfold parallelRecords gatherOutputs
  rw [filterMap_all_some (fun i => processChunk (file.getD i []))
      (List.range file.length) _ ?hall]
  case hall =>
    intro i hi
    exact lookup_gather_found N hN file (List.range N) i (List.mem_range.mp hi)
      (List.mem_range.mpr (Nat.mod_lt i hN))
  rw [range_map_getD]

/-- C3: iterating the same file with `num_threads = 1` and with
`num_threads = 8` produces the same ordered sequence of record results
(per-chunk order preserved, chunks concatenated in file order), hence the
same ok/error counts. -/
theorem parallel_single_thread_equivalence (file : List (List RawRecord)) :
    recordsWithThreads 1 file = recordsWithThreads 8 file := by
  have h8 : (8 : Nat) ≠ 1 := by omega
  simp only [recordsWithThreads, if_pos rfl, if_neg h8]
  exact (parallelRecords_eq 8 (by omega) file).symm

/-- C5: `sample_with_no_crc32.evtx` parsed with `validate_checksums=false`
yields exactly 17 ok records and 0 errors, while the same file parsed
with `validate_checksums=true` surfaces the chunk-level
`InvalidChunkChecksum` error instead of yielding the records. -/
theorem sample_with_no_crc32_behaviour :
    (parseFile false sampleWithNoCrc32).length = 17
    ∧ (parseFile false sampleWithNoCrc32).countP isOkResult = 17
    ∧ (parseFile false sampleWithNoCrc32).countP (fun r => !(isOkResult r)) = 0
    ∧ parseFile true sampleWithNoCrc32
      = [Except.error Error.InvalidChunkChecksum] := by
  refine ⟨?_, ?_, ?_, ?_⟩ <;> rfl
